import Mathlib

/-!
Verification of the Autonomy Control Plugin
(`.opencode/plugin/autonomy-control.ts` and its utilities) against its
natural-language specification.  The TypeScript sources are shallowly
embedded: JS `Map`/`Set` values become association lists / duplicate-free
lists in insertion order, JS regular-expression tests become an executable
backtracking matcher over character lists, and the event-hook bodies become
pure state-transition functions.
-/

namespace Autonomy

/-! ## Character classes (ASCII fragment of the JS regex classes) -/

/-- JS `\s` restricted to ASCII whitespace characters. -/
def isSpaceJS (c : Char) : Bool :=
  c = ' ' || c = '\t' || c = '\n' || c = '\r' || c = '\x0b' || c = '\x0c'

/-- JS `\w` word characters: ASCII letters, digits, underscore. -/
def isWordChar (c : Char) : Bool :=
  c.isAlphanum || c = '_'

/-- The regex class `[a-zA-Z]`. -/
def isAsciiAlpha (c : Char) : Bool :=
  c.isAlpha

/-- JS `String.prototype.toLowerCase` on ASCII text, character by
character. -/
def lowerStr (s : String) : String :=
  String.mk (s.toList.map Char.toLower)

/-- JS `String.prototype.trim` (ASCII whitespace at both ends). -/
def trimStr (s : String) : String :=
  String.mk (((s.toList.dropWhile isSpaceJS).reverse.dropWhile isSpaceJS).reverse)

/-- JS `String.prototype.startsWith`. -/
def startsWithStr (s pre : String) : Bool :=
  pre.toList.isPrefixOf s.toList

/-- JS `.` (without the `s` flag): any character except a line terminator. -/
def isDotChar (c : Char) : Bool :=
  c ≠ '\n' && c ≠ '\r'

/-! ## A small backtracking regex matcher

A matcher consumes characters from the front of a list, remembering the most
recently consumed character (needed for the `\b` word-boundary assertion),
and returns the list of all possible continuation states. -/

/-- Matcher state transformer: previous character and remaining input. -/
def M : Type := Option Char → List Char → List (Option Char × List Char)

/-- Matcher accepting the empty string. -/
def meps : M := fun p s => [(p, s)]

/-- Sequential composition of matchers. -/
def mseq (a b : M) : M := fun p s => (a p s).flatMap (fun x => b x.1 x.2)

/-- Alternation of matchers, left alternative first. -/
def malt (a b : M) : M := fun p s => a p s ++ b p s

/-- Match one character satisfying a predicate. -/
def mcls (q : Char → Bool) : M := fun _ s =>
  match s with
  | [] => []
  | x :: xs => if q x then [(some x, xs)] else []

/-- Match one literal character, case-sensitively. -/
def mlit (c : Char) : M := mcls (fun x => x = c)

/-- Match one literal character, case-insensitively (the `i` flag). -/
def mlitCI (c : Char) : M := mcls (fun x => x.toLower = c.toLower)

/-- All ways to consume a (possibly empty) run of class characters. -/
def mclsStarGo (q : Char → Bool) : Option Char → List Char → List (Option Char × List Char)
  | p, [] => [(p, [])]
  | p, x :: xs =>
    (p, x :: xs) :: (if q x then mclsStarGo q (some x) xs else [])

/-- The regex `C*` for a character class `C`. -/
def mclsStar (q : Char → Bool) : M := fun p s => mclsStarGo q p s

/-- The regex `C+` for a character class `C`. -/
def mclsPlus (q : Char → Bool) : M := mseq (mcls q) (mclsStar q)

/-- Match a literal string, case-sensitively. -/
def mstr (t : String) : M := t.toList.foldr (fun c m => mseq (mlit c) m) meps

/-- Match a literal string, case-insensitively. -/
def mstrCI (t : String) : M := t.toList.foldr (fun c m => mseq (mlitCI c) m) meps

/-- The `\b` word-boundary assertion. -/
def mbound : M := fun p s =>
  let pw := match p with | some c => isWordChar c | none => false
  let nw := match s with | x :: _ => isWordChar x | [] => false
  if pw ≠ nw then [(p, s)] else []

/-- The negative lookahead `(?!\w)`. -/
def mnegAheadWord : M := fun p s =>
  match s with
  | x :: _ => if isWordChar x then [] else [(p, s)]
  | [] => [(p, s)]

/-- Whether the matcher succeeds starting exactly at the current position. -/
def matchesHere (m : M) (p : Option Char) (s : List Char) : Bool :=
  !(m p s).isEmpty

/-- Unanchored search, as JS `RegExp.prototype.test`. -/
def searchFrom (m : M) : Option Char → List Char → Bool
  | p, [] => matchesHere m p []
  | p, x :: xs => matchesHere m p (x :: xs) || searchFrom m (some x) xs

/-- Test a pattern anywhere in a string, as `pattern.test(command)`. -/
def regexTest (m : M) (s : String) : Bool := searchFrom m none s.toList

/-- Chain a list of matchers in sequence. -/
def mseqs (ms : List M) : M := ms.foldr mseq meps

/-! ## `utils/risk-detection.ts` : `isDestructiveCommand` -/

/-- Pattern `/rm\s+-[a-zA-Z]*r[a-zA-Z]*f/`. -/
def patRmRF : M :=
  mseqs [mstr "rm", mclsPlus isSpaceJS, mlit '-',
         mclsStar isAsciiAlpha, mlit 'r', mclsStar isAsciiAlpha, mlit 'f']

/-- Pattern `/rm\s+-[a-zA-Z]*f[a-zA-Z]*r/`. -/
def patRmFR : M :=
  mseqs [mstr "rm", mclsPlus isSpaceJS, mlit '-',
         mclsStar isAsciiAlpha, mlit 'f', mclsStar isAsciiAlpha, mlit 'r']

/-- Pattern `/rm\s+.*\*/`. -/
def patRmWildcard : M :=
  mseqs [mstr "rm", mclsPlus isSpaceJS, mclsStar isDotChar, mlit '*']

/-- Pattern `/rm\s+.*\.\*/`. -/
def patRmDotStar : M :=
  mseqs [mstr "rm", mclsPlus isSpaceJS, mclsStar isDotChar, mlit '.', mlit '*']

/-- Pattern `/rm\s+-r(?!\w)/`. -/
def patRmRecursive : M :=
  mseqs [mstr "rm", mclsPlus isSpaceJS, mlit '-', mlit 'r', mnegAheadWord]

/-- Pattern `/rmdir\s+/`. -/
def patRmdir : M := mseqs [mstr "rmdir", mclsPlus isSpaceJS]

/-- Pattern `/\bdelete\b/i`. -/
def patDelete : M := mseqs [mbound, mstrCI "delete", mbound]

/-- Pattern `/\btruncate\b/i`. -/
def patTruncate : M := mseqs [mbound, mstrCI "truncate", mbound]

/-- Pattern `/\bdrop\s+(?:database|table|schema)\b/i`. -/
def patDrop : M :=
  mseqs [mbound, mstrCI "drop", mclsPlus isSpaceJS,
         malt (mstrCI "database") (malt (mstrCI "table") (mstrCI "schema")),
         mbound]

/-- Pattern `/>\s*\/[^\s]+/`. -/
def patRedirect : M :=
  mseqs [mlit '>', mclsStar isSpaceJS, mlit '/',
         mclsPlus (fun c => !isSpaceJS c)]

/-- Pattern `/\bmkfs\b/`. -/
def patMkfs : M := mseqs [mbound, mstr "mkfs", mbound]

/-- Pattern `/\bdd\s+if=/`. -/
def patDd : M := mseqs [mbound, mstr "dd", mclsPlus isSpaceJS, mstr "if="]

/-- Pattern `/\bformat\b/i`. -/
def patFormat : M := mseqs [mbound, mstrCI "format", mbound]

/-- Pattern `/sudo\s+rm/`. -/
def patSudoRm : M := mseqs [mstr "sudo", mclsPlus isSpaceJS, mstr "rm"]

/-- Pattern `/sudo\s+.*\bdelete\b/i`. -/
def patSudoDelete : M :=
  mseqs [mstrCI "sudo", mclsPlus isSpaceJS, mclsStar isDotChar,
         mbound, mstrCI "delete", mbound]

/-- The `destructivePatterns` array of `isDestructiveCommand`, in source order. -/
def destructivePatterns : List M :=
  [patRmRF, patRmFR, patRmWildcard, patRmDotStar, patRmRecursive,
   patRmdir, patDelete, patTruncate, patDrop, patRedirect,
   patMkfs, patDd, patFormat, patSudoRm, patSudoDelete]

/-- `isDestructiveCommand` from `utils/risk-detection.ts`: a falsy (empty)
command is rejected up front, otherwise the command is tested against every
destructive pattern. -/
def isDestructiveCommand (command : String) : Bool :=
  if command = "" then false
  else destructivePatterns.any (fun m => regexTest m command)

/-! ## `utils/risk-detection.ts` : `getToolRiskLevel` and friends -/

/-- The `highRiskTools` list. -/
def highRiskTools : List String :=
  ["write", "edit", "bash", "delete", "execute", "commit", "patch"]

/-- The `mediumRiskTools` list. -/
def mediumRiskTools : List String :=
  ["task", "fetch", "search", "ask"]

/-- The `readOnlyTools` list. -/
def readOnlyTools : List String :=
  ["read", "list", "grep", "glob", "search_files"]

/-- `getToolRiskLevel` from `utils/risk-detection.ts`: a falsy (empty) tool
name and any name in none of the three lists default to `"medium"`; lookup
lowercases the name first. -/
def getToolRiskLevel (tool : String) : String :=
  if tool = "" then "medium"
  else if highRiskTools.contains (lowerStr tool) then "high"
  else if mediumRiskTools.contains (lowerStr tool) then "medium"
  else if readOnlyTools.contains (lowerStr tool) then "low"
  else "medium"

/-- `isReadOnlyTool` from `utils/risk-detection.ts`. -/
def isReadOnlyTool (tool : String) : Bool :=
  getToolRiskLevel tool == "low"

/-- `isHighRiskTool` from `utils/risk-detection.ts`. -/
def isHighRiskTool (tool : String) : Bool :=
  getToolRiskLevel tool == "high"

/-! ## Insertion-ordered JS `Map` / `Set` operations on association lists -/

/-- JS `Map.prototype.get`. -/
def mapGet {α : Type} : List (String × α) → String → Option α
  | [], _ => none
  | (k, v) :: rest, key => if k = key then some v else mapGet rest key

/-- JS `Map.prototype.set`: update in place if the key exists, else append. -/
def mapSet {α : Type} : List (String × α) → String → α → List (String × α)
  | [], key, v => [(key, v)]
  | (k, w) :: rest, key, v =>
    if k = key then (key, v) :: rest else (k, w) :: mapSet rest key v

/-- JS `Set.prototype.add`: append unless already present. -/
def setAdd (s : List String) (x : String) : List String :=
  if x ∈ s then s else s ++ [x]

/-- JS `Set.prototype.delete`: remove the (unique) occurrence. -/
def setDelete (s : List String) (x : String) : List String :=
  s.filter (fun y => y ≠ x)

/-! ## `types/autonomy.ts`: session state -/

/-- `BackgroundTask` from `types/autonomy.ts`. -/
structure BackgroundTask where
  taskID : String
  tool : String
  status : String
  startTime : Nat
  endTime : Option Nat
  deriving Repr, DecidableEq

/-- `ApprovalRecord` from `types/autonomy.ts`. -/
structure ApprovalRecord where
  timestamp : Nat
  tool : String
  approved : Bool
  mode : String
  deriving Repr, DecidableEq

/-- `SessionMetrics` from `types/autonomy.ts`. -/
structure SessionMetrics where
  toolCallsBlocked : Nat
  approvalsRequested : Nat
  approvalsGranted : Nat
  modeChanges : Nat
  deriving Repr, DecidableEq

/-- `AutonomySessionState` from `types/autonomy.ts`.  The JS `Map` of
background tasks is an insertion-ordered association list and the JS `Set`
of pending approvals an insertion-ordered duplicate-free list.  Modes are
strings so that a corrupted (non-enumerated) `currentMode` is expressible,
as the permission hook must handle that case. -/
structure AutonomySessionState where
  sessionID : String
  currentMode : String
  defaultMode : String
  keywordOverride : Option String
  sessionOverride : Option String
  backgroundTasks : List (String × BackgroundTask)
  maxConcurrentTasks : Nat
  pendingApprovals : List String
  approvalHistory : List ApprovalRecord
  metrics : SessionMetrics
  created : Nat
  lastModeChange : Nat
  lastActivity : Nat
  deriving Repr, DecidableEq

/-! ## `permission.ask` hook of `autonomy-control.ts` -/

/-- Input to the permission hook: tool name, the `args.command` string for
bash (absent or empty is falsy), the `args.type` marker for task, and the
`callID`. -/
structure PermInput where
  tool : String
  command : Option String
  taskType : Option String
  callID : Option String
  deriving Repr, DecidableEq

/-- JS truthiness of `args.command`: present and non-empty. -/
def hasDestructiveCommand : Option String → Bool
  | some c => c ≠ "" && isDestructiveCommand c
  | none => false

/-- The guard `tool === "bash" && args.command && isDestructiveCommand(args.command)`. -/
def destructiveBash (inp : PermInput) : Bool :=
  inp.tool == "bash" && hasDestructiveCommand inp.command

/-- The id recorded on `ask`: `(input as any).callID || tool`. -/
def callIdOrTool (inp : PermInput) : String :=
  match inp.callID with
  | some c => if c = "" then inp.tool else c
  | none => inp.tool

/-- Side effect shared by every `ask` branch of the permission hook:
increment `approvalsRequested` and insert the call id into
`pendingApprovals`. -/
def recordAsk (st : AutonomySessionState) (inp : PermInput) : AutonomySessionState :=
  { st with
    metrics := { st.metrics with approvalsRequested := st.metrics.approvalsRequested + 1 },
    pendingApprovals := setAdd st.pendingApprovals (callIdOrTool inp) }

/-- The body of the `permission.ask` hook for a session whose state exists,
returning the updated state and the status written to the output
(`"allow"` or `"ask"`).  Mirrors the mode dispatch of
`autonomy-control.ts` lines 291–392, including the final
fall-through `output.status = "allow"` for an unknown mode. -/
def permissionAsk (st : AutonomySessionState) (inp : PermInput) :
    AutonomySessionState × String :=
  if st.currentMode = "permissive" then
    if destructiveBash inp then (recordAsk st inp, "ask")
    else (st, "allow")
  else if st.currentMode = "balanced" then
    if inp.tool = "task" ∧ inp.taskType = some "plan" then (recordAsk st inp, "ask")
    else if isHighRiskTool inp.tool then (recordAsk st inp, "ask")
    else if destructiveBash inp then (recordAsk st inp, "ask")
    else (st, "allow")
  else if st.currentMode = "restrictive" then
    if isReadOnlyTool inp.tool then (st, "allow")
    else (recordAsk st inp, "ask")
  else (st, "allow")

/-- The `permission.ask` hook at the sessions-map level: when no state is
registered for the session id the hook returns immediately, leaving the
sessions map and the output status untouched. -/
def permissionAskTop (sessions : List (String × AutonomySessionState))
    (sessionID : String) (inp : PermInput) (status : Option String) :
    List (String × AutonomySessionState) × Option String :=
  match mapGet sessions sessionID with
  | none => (sessions, status)
  | some st =>
    let r := permissionAsk st inp
    (mapSet sessions sessionID r.1, some r.2)

/-! ## `chat.message` hook: keyword detection and mode resolution -/

/-- The `permissiveTriggers` array of the message hook. -/
def permissiveTriggers : List String := ["ultrawork:", "ulw:", "quick:", "fast:"]

/-- The `restrictiveTriggers` array of the message hook. -/
def restrictiveTriggers : List String := ["careful:", "verify:", "safe:", "production:"]

/-- Alternatives of the permissive stripping regex `^(ultrawork|ulw|quick|fast):\s*`. -/
def permissiveKeywords : List String := ["ultrawork", "ulw", "quick", "fast"]

/-- Alternatives of the restrictive stripping regex `^(careful|verify|safe|production):\s*`. -/
def restrictiveKeywords : List String := ["careful", "verify", "safe", "production"]

/-- `text.replace(/^(kw1|kw2|...):\s*}/i, "")`: if the (already trimmed) text
starts, case-insensitively, with one of the keywords followed by a colon,
drop that prefix and the following whitespace run; otherwise return the
text unchanged. -/
def stripTrigger (keywords : List String) (t : String) : String :=
  match keywords.find? (fun kw => startsWithStr (lowerStr t) (kw ++ ":")) with
  | some kw => String.mk ((t.toList.drop (kw.toList.length + 1)).dropWhile isSpaceJS)
  | none => t

/-- The body of the `chat.message` hook (`autonomy-control.ts` lines
397–466): reset the keyword override, detect a leading trigger in the
trimmed, lowercased text, strip it, and resolve the effective mode with
priority keyword > session > default.  `text = none` models a message with
no text parts.  Returns the updated state and the final first-text-part
content. -/
def chatMessage (st : AutonomySessionState) (text : Option String) (now : Nat) :
    AutonomySessionState × Option String :=
  match text with
  | none =>
    ({ st with
        keywordOverride := none,
        currentMode := st.sessionOverride.getD st.defaultMode,
        lastActivity := now }, none)
  | some raw =>
    let t := trimStr raw
    let lower := lowerStr t
    let pm := permissiveTriggers.find? (fun tr => startsWithStr lower tr)
    let rm := restrictiveTriggers.find? (fun tr => startsWithStr lower tr)
    let st1 :=
      match pm with
      | some _ => { st with keywordOverride := some "permissive", currentMode := "permissive" }
      | none => { st with keywordOverride := none }
    let out1 :=
      match pm with
      | some _ => stripTrigger permissiveKeywords t
      | none => raw
    let st2 :=
      match rm with
      | some _ => { st1 with keywordOverride := some "restrictive", currentMode := "restrictive" }
      | none => st1
    let out2 :=
      match rm with
      | some _ => stripTrigger restrictiveKeywords t
      | none => out1
    let st3 :=
      if st2.keywordOverride = none then
        { st2 with currentMode := st2.sessionOverride.getD st2.defaultMode }
      else st2
    ({ st3 with lastActivity := now }, some out2)

/-! ## `tool.execute.before` hook: background concurrency limiter -/

/-- JS truthiness of the `callID` string: present and non-empty. -/
def truthyId : Option String → Option String
  | some c => if c = "" then none else some c
  | none => none

/-- The body of the `tool.execute.before` hook (`autonomy-control.ts` lines
505–538) for a session whose state exists.  For a background-flagged call it
compares the running count against `maxConcurrentTasks` (emitting a warning
when at or over the cap, the returned boolean) and then inserts a `running`
entry regardless. -/
def toolExecuteBefore (st : AutonomySessionState) (tool : String)
    (callID : Option String) (background : Bool) (now : Nat) :
    AutonomySessionState × Bool :=
  if background then
    let taskID :=
      match truthyId callID with
      | some c => c
      | none => tool ++ "-" ++ toString now
    let runningCount :=
      (st.backgroundTasks.filter (fun kv => kv.2.status = "running")).length
    let warn := st.maxConcurrentTasks ≤ runningCount
    ({ st with
        backgroundTasks := mapSet st.backgroundTasks taskID
          ⟨taskID, tool, "running", now, none⟩ }, warn)
  else (st, false)

/-! ## `tool.execute.after` hook: approval outcome tracker -/

/-- `slice(-50)` applied after a push when the history exceeds 50 entries. -/
def capHistory (l : List ApprovalRecord) : List ApprovalRecord :=
  if 50 < l.length then l.drop (l.length - 50) else l

/-- First block of the `tool.execute.after` hook (`autonomy-control.ts`
lines 554–583): if the (truthy) call id is pending, remove it from
`pendingApprovals`, bump exactly one of `approvalsGranted` /
`toolCallsBlocked`, and append a history entry capped at 50. -/
def trackApproval (st : AutonomySessionState) (callID : Option String)
    (tool : String) (isError : Bool) (now : Nat) : AutonomySessionState :=
  match truthyId callID with
  | some cid =>
    if cid ∈ st.pendingApprovals then
      let approved := !isError
      let metrics1 :=
        if approved then
          { st.metrics with approvalsGranted := st.metrics.approvalsGranted + 1 }
        else
          { st.metrics with toolCallsBlocked := st.metrics.toolCallsBlocked + 1 }
      { st with
          pendingApprovals := setDelete st.pendingApprovals cid,
          metrics := metrics1,
          approvalHistory :=
            capHistory (st.approvalHistory ++ [⟨now, tool, approved, st.currentMode⟩]) }
    else st
  | none => st

/-- Second block of the `tool.execute.after` hook (`autonomy-control.ts`
lines 586–595): a background task stored under the call id transitions to
`completed` or `error` with its end time stamped. -/
def completeBackground (st : AutonomySessionState) (callID : Option String)
    (isError : Bool) (now : Nat) : AutonomySessionState :=
  match callID with
  | some tid =>
    match mapGet st.backgroundTasks tid with
    | some task =>
      { st with
          backgroundTasks := mapSet st.backgroundTasks tid
            { task with
                status := if isError then "error" else "completed",
                endTime := some now } }
    | none => st
  | none => st

/-- The body of the `tool.execute.after` hook (`autonomy-control.ts` lines
543–599) for a session whose state exists: the approval-outcome tracking
block followed by the background-completion block. -/
def toolExecuteAfter (st : AutonomySessionState) (callID : Option String)
    (tool : String) (isError : Bool) (now : Nat) : AutonomySessionState :=
  completeBackground (trackApproval st callID tool isError now) callID isError now

/-! ## State persistence: `persistState` / `loadState` -/

/-- `SerializableAutonomySessionState` from `types/autonomy.ts`. -/
structure SerializableAutonomySessionState where
  sessionID : String
  currentMode : String
  defaultMode : String
  keywordOverride : Option String
  sessionOverride : Option String
  backgroundTasks : List (String × BackgroundTask)
  maxConcurrentTasks : Nat
  pendingApprovals : List String
  approvalHistory : List ApprovalRecord
  metrics : SessionMetrics
  created : Nat
  lastModeChange : Nat
  lastActivity : Nat
  deriving Repr, DecidableEq

/-- The serializable record built by `persistState` (`autonomy-control.ts`
lines 97–111): `Array.from(map.entries())` and `Array.from(set)` list the
contents in insertion order. -/
def serializeState (st : AutonomySessionState) : SerializableAutonomySessionState :=
  { sessionID := st.sessionID
    currentMode := st.currentMode
    defaultMode := st.defaultMode
    keywordOverride := st.keywordOverride
    sessionOverride := st.sessionOverride
    backgroundTasks := st.backgroundTasks
    maxConcurrentTasks := st.maxConcurrentTasks
    pendingApprovals := st.pendingApprovals
    approvalHistory := st.approvalHistory
    metrics := st.metrics
    created := st.created
    lastModeChange := st.lastModeChange
    lastActivity := st.lastActivity }

/-- `new Map(entries)`: insert the pairs left to right with `Map.set`
semantics (later values for a duplicate key overwrite in place). -/
def mapFromList (l : List (String × BackgroundTask)) : List (String × BackgroundTask) :=
  l.foldl (fun m kv => mapSet m kv.1 kv.2) []

/-- `new Set(elements)`: insert left to right, skipping duplicates. -/
def setFromList (l : List String) : List String :=
  l.foldl setAdd []

/-- The in-memory state rebuilt by `loadState` (`autonomy-control.ts` lines
129–133): spread the serializable record and reconstruct the `Map` and the
`Set` from their list encodings. -/
def deserializeState (s : SerializableAutonomySessionState) : AutonomySessionState :=
  { sessionID := s.sessionID
    currentMode := s.currentMode
    defaultMode := s.defaultMode
    keywordOverride := s.keywordOverride
    sessionOverride := s.sessionOverride
    backgroundTasks := mapFromList s.backgroundTasks
    maxConcurrentTasks := s.maxConcurrentTasks
    pendingApprovals := setFromList s.pendingApprovals
    approvalHistory := s.approvalHistory
    metrics := s.metrics
    created := s.created
    lastModeChange := s.lastModeChange
    lastActivity := s.lastActivity }

/-! ## Concrete states used to instantiate the theorems -/

/-- A fresh session state as `getOrCreateState` builds it with the default
configuration (`defaultLevel = "balanced"`, `maxConcurrentTasks = 5`). -/
def baseState : AutonomySessionState :=
  { sessionID := "s1", currentMode := "balanced", defaultMode := "balanced",
    keywordOverride := none, sessionOverride := none,
    backgroundTasks := [], maxConcurrentTasks := 5,
    pendingApprovals := [], approvalHistory := [],
    metrics := ⟨0, 0, 0, 0⟩, created := 0, lastModeChange := 0, lastActivity := 0 }

/-- A session in permissive mode. -/
def permissiveState : AutonomySessionState :=
  { baseState with currentMode := "permissive" }

/-- A session in restrictive mode. -/
def restrictiveState : AutonomySessionState :=
  { baseState with currentMode := "restrictive" }

/-- A session whose `currentMode` is none of the three enumerated values. -/
def corruptState : AutonomySessionState :=
  { baseState with currentMode := "corrupted-mode" }

/-- A session with a restrictive session override over a balanced default. -/
def overrideState : AutonomySessionState :=
  { baseState with sessionOverride := some "restrictive", currentMode := "restrictive" }

/-- A session with one pending approval call id. -/
def pendingState : AutonomySessionState :=
  { baseState with pendingApprovals := ["c1"] }

/-- A session with one pending approval and an approval history already at
the 50-entry cap. -/
def histState : AutonomySessionState :=
  { baseState with
      pendingApprovals := ["c1"],
      approvalHistory := List.replicate 50 ⟨7, "write", true, "balanced"⟩ }

/-- A restrictive-default session whose background concurrency cap is 0. -/
def capZeroState : AutonomySessionState :=
  { baseState with currentMode := "restrictive", maxConcurrentTasks := 0 }

/-- A session with non-empty pending approvals, background tasks and
approval history, for the persistence round trip. -/
def fullState : AutonomySessionState :=
  { sessionID := "s2", currentMode := "permissive", defaultMode := "balanced",
    keywordOverride := none, sessionOverride := some "permissive",
    backgroundTasks :=
      [("t1", ⟨"t1", "fetch", "running", 10, none⟩),
       ("t2", ⟨"t2", "bash", "completed", 3, some 9⟩)],
    maxConcurrentTasks := 10,
    pendingApprovals := ["a1", "b2"],
    approvalHistory := [⟨4, "write", true, "balanced"⟩, ⟨8, "bash", false, "permissive"⟩],
    metrics := ⟨1, 4, 3, 2⟩, created := 1, lastModeChange := 2, lastActivity := 9 }

/-! ## Helper lemmas -/

/-- A destructive command is never the empty string. -/
theorem destructive_ne_empty {c : String} (h : isDestructiveCommand c = true) :
    c ≠ "" := by
  intro he
  subst he
  simp [isDestructiveCommand] at h

/-- `Set.add` makes its argument a member. -/
theorem setAdd_self_mem (s : List String) (x : String) : x ∈ setAdd s x := by
  unfold setAdd
  split
  · assumption
  · simp

/-- `Set.delete` removes its argument. -/
theorem setDelete_not_mem (s : List String) (x : String) : x ∉ setDelete s x := by
  simp [setDelete]

/-- `Map.get` after `Map.set` at the same key. -/
theorem mapGet_mapSet_self {α : Type} (m : List (String × α)) (k : String) (v : α) :
    mapGet (mapSet m k v) k = some v := by
  induction m with
  | nil => simp [mapSet, mapGet]
  | cons kv rest ih =>
    obtain ⟨k', w⟩ := kv
    by_cases h : k' = k
    · simp [mapSet, mapGet, h]
    · simp [mapSet, mapGet, h, ih]

/-- A capped history never exceeds 50 entries, provided the uncapped list
has at most 51 (one fresh push onto an in-bound history). -/
theorem capHistory_length_le (l : List ApprovalRecord) (h : l.length ≤ 51) :
    (capHistory l).length ≤ 50 := by
  unfold capHistory
  split
  · simp only [List.length_drop]
    omega
  · omega

/-! ## Claim theorems -/

/-- C3: for every tool name that appears (after lowercasing) in none of the
high-, medium-, or low-risk lists, `getToolRiskLevel` returns the tier
`"medium"`, never `"low"`. -/
theorem unknown_tool_defaults_medium (tool : String)
    (h1 : highRiskTools.contains (lowerStr tool) = false)
    (h2 : mediumRiskTools.contains (lowerStr tool) = false)
    (h3 : readOnlyTools.contains (lowerStr tool) = false) :
    getToolRiskLevel tool = "medium" ∧ getToolRiskLevel tool ≠ "low" := by
  unfold getToolRiskLevel
  rw [h1, h2, h3]
  split <;> simp

/-- Witness for C3 at the unrecognized tool name `"frobnicate"`. -/
theorem unknown_tool_defaults_medium_witness :
    getToolRiskLevel "frobnicate" = "medium" ∧ getToolRiskLevel "frobnicate" ≠ "low" :=
  unknown_tool_defaults_medium "frobnicate" (by decide) (by decide) (by decide)

/-- The balanced-mode `allow` cases of C1, as a reusable fact: with no
planning marker, no high-risk classification and no destructive bash
command, the balanced branch reaches its final `allow`. -/
theorem permissionAsk_balanced_allow (st : AutonomySessionState) (inp : PermInput)
    (hm : st.currentMode = "balanced")
    (hplan : ¬(inp.tool = "task" ∧ inp.taskType = some "plan"))
    (hhigh : isHighRiskTool inp.tool = false)
    (hbash : destructiveBash inp = false) :
    permissionAsk st inp = (st, "allow") := by
  unfold permissionAsk
  rw [hm]
  simp [hplan, hhigh, hbash]

/-- C4: `isDestructiveCommand` returns true on the spec's positive corpus,
false on the negative corpus, and false on the empty command. -/
theorem destructive_command_corpus :
    isDestructiveCommand "rm -rf /tmp/x" = true ∧
    isDestructiveCommand "rm -fr ./x" = true ∧
    isDestructiveCommand "rm *.txt" = true ∧
    isDestructiveCommand "rmdir x" = true ∧
    isDestructiveCommand "drop table users" = true ∧
    isDestructiveCommand "sudo rm -rf /" = true ∧
    isDestructiveCommand "ls -la" = false ∧
    isDestructiveCommand "echo hi" = false ∧
    isDestructiveCommand "cat f.txt" = false ∧
    isDestructiveCommand "grep x f.txt" = false ∧
    isDestructiveCommand "" = false := by
  refine ⟨?_, ?_, ?_, ?_, ?_, ?_, ?_, ?_, ?_, ?_, ?_⟩ <;> decide

/-- C1: the permission hook follows the per-mode decision table.  In
permissive mode a non-bash tool is allowed and a destructive bash command
is asked, incrementing `approvalsRequested` by exactly 1 and inserting the
call id into `pendingApprovals`; in balanced mode a planning task, a
high-risk tool and a destructive bash command are asked and everything else
is allowed untouched; in restrictive mode a low-risk tool is allowed and
every other tool — unknown names classify as medium — is asked. -/
theorem permission_decision_table :
    (∀ st inp, st.currentMode = "permissive" → inp.tool ≠ "bash" →
        permissionAsk st inp = (st, "allow")) ∧
    (∀ st inp c, st.currentMode = "permissive" → inp.tool = "bash" →
        inp.command = some c → isDestructiveCommand c = true →
        (permissionAsk st inp).2 = "ask" ∧
        (permissionAsk st inp).1.metrics.approvalsRequested
          = st.metrics.approvalsRequested + 1 ∧
        callIdOrTool inp ∈ (permissionAsk st inp).1.pendingApprovals) ∧
    (∀ st inp, st.currentMode = "balanced" → inp.tool = "task" →
        inp.taskType = some "plan" → (permissionAsk st inp).2 = "ask") ∧
    (∀ st inp, st.currentMode = "balanced" → getToolRiskLevel inp.tool = "high" →
        (permissionAsk st inp).2 = "ask") ∧
    (∀ st inp c, st.currentMode = "balanced" → inp.tool = "bash" →
        inp.command = some c → isDestructiveCommand c = true →
        (permissionAsk st inp).2 = "ask") ∧
    (∀ st inp, st.currentMode = "balanced" →
        ¬(inp.tool = "task" ∧ inp.taskType = some "plan") →
        getToolRiskLevel inp.tool ≠ "high" →
        destructiveBash inp = false →
        permissionAsk st inp = (st, "allow")) ∧
    (∀ st inp, st.currentMode = "restrictive" → getToolRiskLevel inp.tool = "low" →
        permissionAsk st inp = (st, "allow")) ∧
    (∀ st inp, st.currentMode = "restrictive" → getToolRiskLevel inp.tool ≠ "low" →
        (permissionAsk st inp).2 = "ask") := by
  refine ⟨?_, ?_, ?_, ?_, ?_, ?_, ?_, ?_⟩
  · intro st inp hm htool
    have hd : destructiveBash inp = false := by simp [destructiveBash, htool]
    unfold permissionAsk
    rw [hm]
    simp [hd]
  · intro st inp c hm htool hcmd hdc
    have hne : c ≠ "" := destructive_ne_empty hdc
    have hd : destructiveBash inp = true := by
      simp [destructiveBash, hasDestructiveCommand, htool, hcmd, hne, hdc]
    unfold permissionAsk
    rw [hm]
    simp [hd, recordAsk, setAdd_self_mem]
  · intro st inp hm htool htype
    unfold permissionAsk
    rw [hm]
    simp [htool, htype]
  · intro st inp hm hrisk
    have hh : isHighRiskTool inp.tool = true := by simp [isHighRiskTool, hrisk]
    unfold permissionAsk
    rw [hm]
    simp [hh]
  · intro st inp c hm htool hcmd hdc
    have hne : c ≠ "" := destructive_ne_empty hdc
    have hd : destructiveBash inp = true := by
      simp [destructiveBash, hasDestructiveCommand, htool, hcmd, hne, hdc]
    unfold permissionAsk
    rw [hm]
    simp [hd]
  · intro st inp hm hplan hhigh hbash
    have hh : isHighRiskTool inp.tool = false := by
      simp [isHighRiskTool, hhigh]
    exact permissionAsk_balanced_allow st inp hm hplan hh hbash
  · intro st inp hm hlow
    have hr : isReadOnlyTool inp.tool = true := by simp [isReadOnlyTool, hlow]
    unfold permissionAsk
    rw [hm]
    simp [hr]
  · intro st inp hm hlow
    have hr : isReadOnlyTool inp.tool = false := by simp [isReadOnlyTool, hlow]
    unfold permissionAsk
    rw [hm]
    simp [hr]

/-- Witness for C1: one concrete request per decision-table row. -/
theorem permission_decision_table_witness :
    permissionAsk permissiveState ⟨"read", none, none, some "w1"⟩
      = (permissiveState, "allow") ∧
    (permissionAsk permissiveState ⟨"bash", some "rm -rf /tmp/x", none, some "w2"⟩).2 = "ask" ∧
    (permissionAsk permissiveState
        ⟨"bash", some "rm -rf /tmp/x", none, some "w2"⟩).1.metrics.approvalsRequested
      = permissiveState.metrics.approvalsRequested + 1 ∧
    callIdOrTool ⟨"bash", some "rm -rf /tmp/x", none, some "w2"⟩
      ∈ (permissionAsk permissiveState
          ⟨"bash", some "rm -rf /tmp/x", none, some "w2"⟩).1.pendingApprovals ∧
    (permissionAsk baseState ⟨"task", none, some "plan", some "w3"⟩).2 = "ask" ∧
    (permissionAsk baseState ⟨"write", none, none, some "w4"⟩).2 = "ask" ∧
    (permissionAsk baseState ⟨"bash", some "sudo rm -rf /", none, some "w5"⟩).2 = "ask" ∧
    permissionAsk baseState ⟨"fetch", none, none, some "w6"⟩ = (baseState, "allow") ∧
    permissionAsk restrictiveState ⟨"read", none, none, some "w7"⟩
      = (restrictiveState, "allow") ∧
    (permissionAsk restrictiveState ⟨"mystery_tool", none, none, some "w8"⟩).2 = "ask" := by
  refine ⟨?_, ?_, ?_, ?_, ?_, ?_, ?_, ?_, ?_, ?_⟩
  · exact permission_decision_table.1 permissiveState _ rfl (by decide)
  · exact (permission_decision_table.2.1 permissiveState _ "rm -rf /tmp/x"
      rfl rfl rfl (by decide)).1
  · exact (permission_decision_table.2.1 permissiveState _ "rm -rf /tmp/x"
      rfl rfl rfl (by decide)).2.1
  · exact (permission_decision_table.2.1 permissiveState _ "rm -rf /tmp/x"
      rfl rfl rfl (by decide)).2.2
  · exact permission_decision_table.2.2.1 baseState _ rfl rfl rfl
  · exact permission_decision_table.2.2.2.1 baseState _ rfl (by decide)
  · exact permission_decision_table.2.2.2.2.1 baseState _ "sudo rm -rf /"
      rfl rfl rfl (by decide)
  · exact permission_decision_table.2.2.2.2.2.1 baseState _ rfl (by decide)
      (by decide) (by decide)
  · exact permission_decision_table.2.2.2.2.2.2.1 restrictiveState _ rfl (by decide)
  · exact permission_decision_table.2.2.2.2.2.2.2 restrictiveState _ rfl (by decide)

/-- C2 (counterexample): for a session whose `currentMode` is none of the
three enumerated values the permission hook returns `allow`, not the
claimed fail-safe `ask`. -/
theorem unknown_mode_allows_cex :
    corruptState.currentMode ≠ "permissive" ∧
    corruptState.currentMode ≠ "balanced" ∧
    corruptState.currentMode ≠ "restrictive" ∧
    (permissionAsk corruptState ⟨"write", none, none, some "c9"⟩).2 = "allow" ∧
    (permissionAsk corruptState ⟨"write", none, none, some "c9"⟩).2 ≠ "ask" := by
  refine ⟨?_, ?_, ?_, ?_, ?_⟩ <;> decide

/-- C2 (amended): for every permission-check request whose session
`currentMode` is not one of the three enumerated values, the hook falls
through to its explicit default and returns `allow` with the state
untouched; `ask` is produced only by the exception handler. -/
theorem unknown_mode_fails_open (st : AutonomySessionState) (inp : PermInput)
    (h1 : st.currentMode ≠ "permissive") (h2 : st.currentMode ≠ "balanced")
    (h3 : st.currentMode ≠ "restrictive") :
    permissionAsk st inp = (st, "allow") := by
  unfold permissionAsk
  rw [if_neg h1, if_neg h2, if_neg h3]

/-- Witness for the amended C2 at a concrete corrupted mode. -/
theorem unknown_mode_fails_open_witness :
    permissionAsk corruptState ⟨"bash", some "rm -rf /", none, some "c9"⟩
      = (corruptState, "allow") :=
  unknown_mode_fails_open corruptState _ (by decide) (by decide) (by decide)

/-- The background-completion block never touches `pendingApprovals`, the
metrics, the approval history or the current mode. -/
theorem completeBackground_frame (st : AutonomySessionState) (callID : Option String)
    (err : Bool) (now : Nat) :
    (completeBackground st callID err now).pendingApprovals = st.pendingApprovals ∧
    (completeBackground st callID err now).metrics = st.metrics ∧
    (completeBackground st callID err now).approvalHistory = st.approvalHistory := by
  unfold completeBackground
  cases callID with
  | none => exact ⟨rfl, rfl, rfl⟩
  | some tid => cases h : mapGet st.backgroundTasks tid <;> simp [h]

/-- Approval-tracking block, run case: a non-empty pending call id is
removed, the matching counter bumped and one capped history entry
appended. -/
theorem trackApproval_run (st : AutonomySessionState) (cid tool : String) (err : Bool)
    (now : Nat) (hne : cid ≠ "") (hmem : cid ∈ st.pendingApprovals) :
    trackApproval st (some cid) tool err now
      = { st with
            pendingApprovals := setDelete st.pendingApprovals cid,
            metrics :=
              if err then
                { st.metrics with toolCallsBlocked := st.metrics.toolCallsBlocked + 1 }
              else
                { st.metrics with approvalsGranted := st.metrics.approvalsGranted + 1 },
            approvalHistory :=
              capHistory (st.approvalHistory ++ [⟨now, tool, !err, st.currentMode⟩]) } := by
  unfold trackApproval
  simp only [truthyId, if_neg hne, if_pos hmem]
  cases err <;> simp

/-- Approval-tracking block, skip case: an absent, empty or non-pending
call id leaves the state untouched. -/
theorem trackApproval_skip (st : AutonomySessionState) (callID : Option String)
    (tool : String) (err : Bool) (now : Nat)
    (hskip : ∀ cid, truthyId callID = some cid → cid ∉ st.pendingApprovals) :
    trackApproval st callID tool err now = st := by
  unfold trackApproval
  cases h : truthyId callID with
  | none => simp
  | some cid => simp [if_neg (hskip cid h)]

/-- Fields of `toolExecuteAfter` in the run case, via the two blocks. -/
theorem tea_run (st : AutonomySessionState) (cid tool : String) (err : Bool) (now : Nat)
    (hne : cid ≠ "") (hmem : cid ∈ st.pendingApprovals) :
    (toolExecuteAfter st (some cid) tool err now).pendingApprovals
        = setDelete st.pendingApprovals cid ∧
    (toolExecuteAfter st (some cid) tool err now).metrics
        = (if err then
            { st.metrics with toolCallsBlocked := st.metrics.toolCallsBlocked + 1 }
           else
            { st.metrics with approvalsGranted := st.metrics.approvalsGranted + 1 }) ∧
    (toolExecuteAfter st (some cid) tool err now).approvalHistory
        = capHistory (st.approvalHistory ++ [⟨now, tool, !err, st.currentMode⟩]) := by
  unfold toolExecuteAfter
  rw [trackApproval_run st cid tool err now hne hmem]
  obtain ⟨h1, h2, h3⟩ := completeBackground_frame
    ({ st with
        pendingApprovals := setDelete st.pendingApprovals cid,
        metrics :=
          if err then
            { st.metrics with toolCallsBlocked := st.metrics.toolCallsBlocked + 1 }
          else
            { st.metrics with approvalsGranted := st.metrics.approvalsGranted + 1 },
        approvalHistory :=
          capHistory (st.approvalHistory ++ [⟨now, tool, !err, st.currentMode⟩]) })
    (some cid) err now
  exact ⟨h1, h2, h3⟩

/-- Fields of `toolExecuteAfter` in the skip case. -/
theorem tea_skip (st : AutonomySessionState) (callID : Option String) (tool : String)
    (err : Bool) (now : Nat)
    (hskip : ∀ cid, truthyId callID = some cid → cid ∉ st.pendingApprovals) :
    (toolExecuteAfter st callID tool err now).pendingApprovals = st.pendingApprovals ∧
    (toolExecuteAfter st callID tool err now).metrics = st.metrics ∧
    (toolExecuteAfter st callID tool err now).approvalHistory = st.approvalHistory := by
  unfold toolExecuteAfter
  rw [trackApproval_skip st callID tool err now hskip]
  exact completeBackground_frame st callID err now

/-- C5: the outcome tracker is idempotent per call id.  The first callback
for a pending call id removes it, increments exactly one of
`approvalsGranted` (success) or `toolCallsBlocked` (error) and appends
exactly one capped history entry; a second callback with the same call id
changes neither the metrics nor the history. -/
theorem outcome_tracker_idempotent (st : AutonomySessionState) (cid tool : String)
    (err : Bool) (now later : Nat) (hne : cid ≠ "") (hmem : cid ∈ st.pendingApprovals) :
    (toolExecuteAfter st (some cid) tool err now).pendingApprovals
        = setDelete st.pendingApprovals cid ∧
    cid ∉ (toolExecuteAfter st (some cid) tool err now).pendingApprovals ∧
    (err = false →
      (toolExecuteAfter st (some cid) tool err now).metrics.approvalsGranted
          = st.metrics.approvalsGranted + 1 ∧
      (toolExecuteAfter st (some cid) tool err now).metrics.toolCallsBlocked
          = st.metrics.toolCallsBlocked) ∧
    (err = true →
      (toolExecuteAfter st (some cid) tool err now).metrics.toolCallsBlocked
          = st.metrics.toolCallsBlocked + 1 ∧
      (toolExecuteAfter st (some cid) tool err now).metrics.approvalsGranted
          = st.metrics.approvalsGranted) ∧
    (toolExecuteAfter st (some cid) tool err now).approvalHistory
        = capHistory (st.approvalHistory ++ [⟨now, tool, !err, st.currentMode⟩]) ∧
    (toolExecuteAfter (toolExecuteAfter st (some cid) tool err now)
        (some cid) tool err later).metrics
      = (toolExecuteAfter st (some cid) tool err now).metrics ∧
    (toolExecuteAfter (toolExecuteAfter st (some cid) tool err now)
        (some cid) tool err later).approvalHistory
      = (toolExecuteAfter st (some cid) tool err now).approvalHistory := by
  obtain ⟨hp, hmtr, hh⟩ := tea_run st cid tool err now hne hmem
  have hnotmem : cid ∉ (toolExecuteAfter st (some cid) tool err now).pendingApprovals := by
    rw [hp]
    exact setDelete_not_mem _ _
  have hskip := tea_skip (toolExecuteAfter st (some cid) tool err now) (some cid)
    tool err later (by
      intro c hc
      simp only [truthyId, if_neg hne] at hc
      cases hc
      exact hnotmem)
  refine ⟨hp, hnotmem, ?_, ?_, hh, hskip.2.1, hskip.2.2⟩
  · intro herr
    subst herr
    rw [hmtr]
    simp
  · intro herr
    subst herr
    rw [hmtr]
    simp

/-- Witness for C5 at a concrete pending call id. -/
theorem outcome_tracker_idempotent_witness :
    (toolExecuteAfter pendingState (some "c1") "write" false 10).pendingApprovals
        = setDelete pendingState.pendingApprovals "c1" ∧
    "c1" ∉ (toolExecuteAfter pendingState (some "c1") "write" false 10).pendingApprovals ∧
    (false = false →
      (toolExecuteAfter pendingState (some "c1") "write" false 10).metrics.approvalsGranted
          = pendingState.metrics.approvalsGranted + 1 ∧
      (toolExecuteAfter pendingState (some "c1") "write" false 10).metrics.toolCallsBlocked
          = pendingState.metrics.toolCallsBlocked) ∧
    (false = true →
      (toolExecuteAfter pendingState (some "c1") "write" false 10).metrics.toolCallsBlocked
          = pendingState.metrics.toolCallsBlocked + 1 ∧
      (toolExecuteAfter pendingState (some "c1") "write" false 10).metrics.approvalsGranted
          = pendingState.metrics.approvalsGranted) ∧
    (toolExecuteAfter pendingState (some "c1") "write" false 10).approvalHistory
        = capHistory (pendingState.approvalHistory
            ++ [⟨10, "write", !false, pendingState.currentMode⟩]) ∧
    (toolExecuteAfter (toolExecuteAfter pendingState (some "c1") "write" false 10)
        (some "c1") "write" false 11).metrics
      = (toolExecuteAfter pendingState (some "c1") "write" false 10).metrics ∧
    (toolExecuteAfter (toolExecuteAfter pendingState (some "c1") "write" false 10)
        (some "c1") "write" false 11).approvalHistory
      = (toolExecuteAfter pendingState (some "c1") "write" false 10).approvalHistory :=
  outcome_tracker_idempotent pendingState "c1" "write" false 10 11 (by decide) (by decide)

/-- C6: `approvalHistory` never exceeds 50 entries after an outcome-tracker
invocation from an in-bound state, an overflowing append evicts the oldest
entries keeping the most recent 50 in order, and no other hook mutation
(permission check, message hook, background-start hook) ever touches the
history. -/
theorem approval_history_bounded :
    (∀ st callID tool err now, st.approvalHistory.length ≤ 50 →
        (toolExecuteAfter st callID tool err now).approvalHistory.length ≤ 50) ∧
    (∀ st cid tool err now, cid ≠ "" → cid ∈ st.pendingApprovals →
        50 ≤ st.approvalHistory.length →
        (toolExecuteAfter st (some cid) tool err now).approvalHistory
          = (st.approvalHistory
              ++ [ApprovalRecord.mk now tool (!err) st.currentMode]).drop
              (st.approvalHistory.length + 1 - 50)) ∧
    (∀ st inp, (permissionAsk st inp).1.approvalHistory = st.approvalHistory) ∧
    (∀ st text now, (chatMessage st text now).1.approvalHistory = st.approvalHistory) ∧
    (∀ st tool callID bg now,
        (toolExecuteBefore st tool callID bg now).1.approvalHistory
          = st.approvalHistory) := by
  refine ⟨?_, ?_, ?_, ?_, ?_⟩
  · intro st callID tool err now hlen
    by_cases hrun : ∃ cid, truthyId callID = some cid ∧ cid ∈ st.pendingApprovals
    · obtain ⟨cid, hc, hmem⟩ := hrun
      have hform : cid ≠ "" ∧ callID = some cid := by
        cases callID with
        | none => simp [truthyId] at hc
        | some c =>
          simp only [truthyId] at hc
          by_cases hce : c = ""
          · simp [hce] at hc
          · rw [if_neg hce] at hc
            cases hc
            exact ⟨hce, rfl⟩
      obtain ⟨hne, hcid⟩ := hform
      subst hcid
      rw [(tea_run st cid tool err now hne hmem).2.2]
      refine capHistory_length_le _ ?_
      simp only [List.length_append, List.length_singleton]
      omega
    · have hskip : ∀ cid, truthyId callID = some cid → cid ∉ st.pendingApprovals := by
        intro c hc hmemc
        exact hrun ⟨c, hc, hmemc⟩
      rw [(tea_skip st callID tool err now hskip).2.2]
      exact hlen
  · intro st cid tool err now hne hmem hlen
    rw [(tea_run st cid tool err now hne hmem).2.2]
    unfold capHistory
    rw [if_pos (by simp only [List.length_append, List.length_singleton]; omega)]
    simp only [List.length_append, List.length_singleton]
  · intro st inp
    unfold permissionAsk
    split_ifs <;> simp [recordAsk]
  · intro st text now
    unfold chatMessage
    cases text with
    | none => simp
    | some raw =>
      dsimp only
      cases hpm : permissiveTriggers.find?
          (fun tr => startsWithStr (lowerStr (trimStr raw)) tr) <;>
      cases hrm : restrictiveTriggers.find?
          (fun tr => startsWithStr (lowerStr (trimStr raw)) tr) <;>
        simp [hpm, hrm]
  · intro st tool callID bg now
    unfold toolExecuteBefore
    cases bg <;> simp

/-- Witness for C6: a fresh state stays in bound, and a state already at
the 50-entry cap evicts its oldest entry. -/
theorem approval_history_bounded_witness :
    (toolExecuteAfter baseState (some "x") "write" false 1).approvalHistory.length ≤ 50 ∧
    (toolExecuteAfter histState (some "c1") "edit" true 99).approvalHistory
      = (histState.approvalHistory
          ++ [ApprovalRecord.mk 99 "edit" (!true) histState.currentMode]).drop
          (histState.approvalHistory.length + 1 - 50) ∧
    (permissionAsk restrictiveState ⟨"write", none, none, some "w9"⟩).1.approvalHistory
      = restrictiveState.approvalHistory ∧
    (chatMessage baseState (some "quick: go") 3).1.approvalHistory
      = baseState.approvalHistory ∧
    (toolExecuteBefore baseState "fetch" (some "b7") true 4).1.approvalHistory
      = baseState.approvalHistory :=
  ⟨approval_history_bounded.1 baseState (some "x") "write" false 1 (by decide),
   approval_history_bounded.2.1 histState "c1" "edit" true 99 (by decide) (by decide)
     (by decide),
   approval_history_bounded.2.2.1 restrictiveState _,
   approval_history_bounded.2.2.2.1 baseState (some "quick: go") 3,
   approval_history_bounded.2.2.2.2 baseState "fetch" (some "b7") true 4⟩

/-- C7: mode resolution follows messageOverride > sessionOverride >
defaultMode.  With `defaultMode = balanced` and
`sessionOverride = restrictive`, a message starting with a
permissive-triggering keyword is processed with `currentMode = permissive`
and the keyword prefix stripped from its text, and the next message
without a keyword falls back to `restrictive`; in general a permissive
trigger forces `permissive`, and a message with no trigger resets
`keywordOverride` and resolves `sessionOverride ?? defaultMode`. -/
theorem mode_resolution_priority :
    ((chatMessage overrideState (some "quick: fix the bug") 5).1.currentMode
        = "permissive" ∧
     (chatMessage overrideState (some "quick: fix the bug") 5).2
        = some "fix the bug" ∧
     (chatMessage (chatMessage overrideState (some "quick: fix the bug") 5).1
        (some "continue") 6).1.currentMode = "restrictive") ∧
    (∀ st raw now tr,
        permissiveTriggers.find? (fun t => startsWithStr (lowerStr (trimStr raw)) t)
          = some tr →
        restrictiveTriggers.find? (fun t => startsWithStr (lowerStr (trimStr raw)) t)
          = none →
        (chatMessage st (some raw) now).1.currentMode = "permissive" ∧
        (chatMessage st (some raw) now).1.keywordOverride = some "permissive" ∧
        (chatMessage st (some raw) now).2
          = some (stripTrigger permissiveKeywords (trimStr raw))) ∧
    (∀ st raw now,
        permissiveTriggers.find? (fun t => startsWithStr (lowerStr (trimStr raw)) t)
          = none →
        restrictiveTriggers.find? (fun t => startsWithStr (lowerStr (trimStr raw)) t)
          = none →
        (chatMessage st (some raw) now).1.currentMode
          = st.sessionOverride.getD st.defaultMode ∧
        (chatMessage st (some raw) now).1.keywordOverride = none) := by
  refine ⟨by decide, ?_, ?_⟩
  · intro st raw now tr hpm hrm
    unfold chatMessage
    dsimp only
    simp [hpm, hrm]
  · intro st raw now hpm hrm
    unfold chatMessage
    dsimp only
    simp [hpm, hrm]

/-- Witness for C7: a trigger message and a plain message on the
session-overridden state. -/
theorem mode_resolution_priority_witness :
    ((chatMessage overrideState (some "fast: deploy") 7).1.currentMode = "permissive" ∧
     (chatMessage overrideState (some "fast: deploy") 7).1.keywordOverride
        = some "permissive" ∧
     (chatMessage overrideState (some "fast: deploy") 7).2
        = some (stripTrigger permissiveKeywords (trimStr "fast: deploy"))) ∧
    ((chatMessage overrideState (some "continue") 8).1.currentMode
        = overrideState.sessionOverride.getD overrideState.defaultMode ∧
     (chatMessage overrideState (some "continue") 8).1.keywordOverride = none) :=
  ⟨mode_resolution_priority.2.1 overrideState "fast: deploy" 7 "fast:"
     (by decide) (by decide),
   mode_resolution_priority.2.2 overrideState "continue" 8 (by decide) (by decide)⟩

/-- Adding a fresh element to a JS set appends it. -/
theorem setAdd_not_mem (acc : List String) (a : String) (h : a ∉ acc) :
    setAdd acc a = acc ++ [a] :=
  if_neg h

/-- Folding `Set.add` over a duplicate-free list of fresh elements appends
the list. -/
theorem foldl_setAdd (l : List String) : ∀ acc, l.Nodup → (∀ x ∈ l, x ∉ acc) →
    l.foldl setAdd acc = acc ++ l := by
  induction l with
  | nil =>
    intro acc _ _
    simp
  | cons a l ih =>
    intro acc hnd hfresh
    have ha : a ∉ acc := hfresh a (by simp)
    have hl : l.Nodup := (List.nodup_cons.mp hnd).2
    have hshift : ∀ x ∈ l, x ∉ acc ++ [a] := by
      intro x hx
      simp only [List.mem_append, List.mem_singleton]
      push_neg
      refine ⟨hfresh x (by simp [hx]), ?_⟩
      intro hxa
      subst hxa
      exact (List.nodup_cons.mp hnd).1 hx
    simp only [List.foldl_cons]
    rw [setAdd_not_mem acc a ha, ih (acc ++ [a]) hl hshift]
    simp

/-- `new Set(list)` on a duplicate-free list reproduces the list. -/
theorem setFromList_id (l : List String) (h : l.Nodup) : setFromList l = l := by
  unfold setFromList
  simpa using foldl_setAdd l [] h (by simp)

/-- Setting a fresh key in a JS map appends the pair. -/
theorem mapSet_not_mem (m : List (String × BackgroundTask)) (k : String)
    (v : BackgroundTask) (h : k ∉ m.map Prod.fst) :
    mapSet m k v = m ++ [(k, v)] := by
  induction m with
  | nil => rfl
  | cons kv rest ih =>
    obtain ⟨k', w⟩ := kv
    simp only [List.map_cons, List.mem_cons] at h
    push_neg at h
    unfold mapSet
    rw [if_neg (fun hh => h.1 hh.symm)]
    rw [ih h.2]
    simp

/-- Folding `Map.set` over pairs with duplicate-free fresh keys appends
the pairs. -/
theorem foldl_mapSet (l : List (String × BackgroundTask)) : ∀ acc,
    (l.map Prod.fst).Nodup → (∀ kv ∈ l, kv.1 ∉ acc.map Prod.fst) →
    l.foldl (fun m kv => mapSet m kv.1 kv.2) acc = acc ++ l := by
  induction l with
  | nil =>
    intro acc _ _
    simp
  | cons a l ih =>
    intro acc hnd hfresh
    have ha : a.1 ∉ acc.map Prod.fst := hfresh a (by simp)
    simp only [List.map_cons, List.nodup_cons] at hnd
    have hshift : ∀ kv ∈ l, kv.1 ∉ (acc ++ [a]).map Prod.fst := by
      intro kv hkv
      simp only [List.map_append, List.mem_append, List.map_cons, List.map_nil,
        List.mem_singleton]
      push_neg
      refine ⟨hfresh kv (by simp [hkv]), ?_⟩
      intro hk
      exact hnd.1 (hk ▸ List.mem_map_of_mem Prod.fst hkv)
    simp only [List.foldl_cons]
    rw [mapSet_not_mem acc a.1 a.2 ha, ih (acc ++ [a]) hnd.2 hshift]
    simp

/-- `new Map(entries)` on entries with duplicate-free keys reproduces the
entry list. -/
theorem mapFromList_id (l : List (String × BackgroundTask))
    (h : (l.map Prod.fst).Nodup) : mapFromList l = l := by
  unfold mapFromList
  simpa using foldl_mapSet l [] h (by simp)

/-- C8: persistence round trip.  Serializing a session state (Map/Set
members listed in insertion order) and deserializing the record
(`new Map` / `new Set` over the lists) reproduces a logically equal state,
for every state whose set and map respect JS set/map well-formedness
(no duplicate elements or keys). -/
theorem persistence_round_trip (st : AutonomySessionState)
    (h1 : st.pendingApprovals.Nodup)
    (h2 : (st.backgroundTasks.map Prod.fst).Nodup) :
    deserializeState (serializeState st) = st := by
  unfold deserializeState serializeState
  simp only [setFromList_id _ h1, mapFromList_id _ h2]

/-- Witness for C8 at a state with non-empty pending approvals, background
tasks, approval history and metrics. -/
theorem persistence_round_trip_witness :
    deserializeState (serializeState fullState) = fullState :=
  persistence_round_trip fullState (by decide) (by decide)

/-- C9 (counterexample): with the restrictive default cap of 0 concurrent
background tasks, a background-flagged action is still admitted — a new
`running` entry is recorded in `backgroundTasks`, contradicting the claim
that a cap of 0 disables background actions entirely. -/
theorem background_cap_zero_cex :
    capZeroState.maxConcurrentTasks = 0 ∧
    capZeroState.backgroundTasks = [] ∧
    ((toolExecuteBefore capZeroState "fetch" (some "b1") true 100).1.backgroundTasks.filter
        (fun kv => kv.2.status = "running")).length = 1 ∧
    mapGet (toolExecuteBefore capZeroState "fetch" (some "b1") true 100).1.backgroundTasks
        "b1"
      = some ⟨"b1", "fetch", "running", 100, none⟩ := by
  refine ⟨?_, ?_, ?_, ?_⟩ <;> decide

/-- C9 (amended): when a mode's background cap is 0, the limiter emits the
capacity-exceeded warning for every background-flagged action but does not
block it — a new entry with status `running` is still recorded under the
call id (soft, advisory limit). -/
theorem background_cap_zero_soft_limit (st : AutonomySessionState) (tool cid : String)
    (now : Nat) (hcap : st.maxConcurrentTasks = 0) (hne : cid ≠ "") :
    (toolExecuteBefore st tool (some cid) true now).2 = true ∧
    mapGet (toolExecuteBefore st tool (some cid) true now).1.backgroundTasks cid
      = some ⟨cid, tool, "running", now, none⟩ := by
  unfold toolExecuteBefore
  simp only [truthyId, if_neg hne, if_true]
  constructor
  · simp [hcap]
  · exact mapGet_mapSet_self _ _ _

/-- Witness for the amended C9 at the cap-0 restrictive state. -/
theorem background_cap_zero_soft_limit_witness :
    (toolExecuteBefore capZeroState "fetch" (some "b2") true 101).2 = true ∧
    mapGet (toolExecuteBefore capZeroState "fetch" (some "b2") true 101).1.backgroundTasks
        "b2"
      = some ⟨"b2", "fetch", "running", 101, none⟩ :=
  background_cap_zero_soft_limit capZeroState "fetch" "b2" 101 (by decide) (by decide)

/-- C10: a permission check for a conversation id with no in-memory session
state creates no state, mutates nothing and writes no verdict — the
sessions map and the output status field are returned unchanged. -/
theorem permission_no_state_frame (sessions : List (String × AutonomySessionState))
    (sid : String) (inp : PermInput) (status : Option String)
    (h : mapGet sessions sid = none) :
    permissionAskTop sessions sid inp status = (sessions, status) := by
  unfold permissionAskTop
  rw [h]

/-- Witness for C10 at an empty sessions map. -/
theorem permission_no_state_frame_witness :
    permissionAskTop [] "s9" ⟨"bash", some "rm -rf /", none, some "c1"⟩ none
      = ([], none) :=
  permission_no_state_frame [] "s9" ⟨"bash", some "rm -rf /", none, some "c1"⟩ none rfl

end Autonomy
